import Mathlib

/-!
Verification of the StudySahayak content-to-knowledge-graph derivation
pipeline.  The definitions below are a shallow embedding of the Python
source: `generate_graph_data`, `generate_legacy_graph_data` and
`create_simple_graph_from_text` from `app.py`, and
`_create_enhanced_fallback_hierarchy` /
`generate_hierarchical_graph_structure` from `services/ai_service.py`.
Python dict accesses of the form `d.get(k, default)` on a fixed key with a
fixed default are folded into record fields (a missing key is represented
by the default value); accesses whose default depends on the loop counter
keep an `Option` field.  Python's `str(n)` is `Nat.repr`.
-/

namespace StudySahayak

/-- Splitter for Python `s.split(sep)` with a non-empty separator: scan
left to right, cut at each non-overlapping occurrence of `sep`, keeping
empty fragments.  The fuel argument (instantiated with the input length)
makes the recursion structural. -/
def splitSeqF (sep : List Char) : Nat → List Char → List (List Char)
  | _, [] => [[]]
  | 0, l => [l]
  | fuel + 1, c :: rest =>
    if sep.isPrefixOf (c :: rest) then
      [] :: splitSeqF sep fuel (List.drop (sep.length - 1) rest)
    else
      match splitSeqF sep fuel rest with
      | [] => [[c]]
      | l :: ls => (c :: l) :: ls

/-- Python `s.split(sep)` (explicit non-empty separator). -/
def pySplit (sep s : String) : List String :=
  (splitSeqF sep.data s.data.length s.data).map String.mk

/-- Python `s.strip()`: drop leading and trailing whitespace. -/
def pyStrip (s : String) : String :=
  String.mk (((s.data.dropWhile Char.isWhitespace).reverse.dropWhile
    Char.isWhitespace).reverse)

/-- Python list comprehension `[p.strip() for p in text.split(sep) if p.strip()]`. -/
def stripSplit (sep text : String) : List String :=
  ((pySplit sep text).map pyStrip).filter (fun p => p != "")

/-- Python `s[:limit] + "..." if len(s) > limit else s`. -/
def pyTruncate (limit : Nat) (s : String) : String :=
  if s.length > limit then s.take limit ++ "..." else s

/-- A node of the final graph.  Fields mirror the Python dict keys
`id`, `name`, `type`, `level`, `size`, `content`, `color` (the simple and
legacy builders emit no `color` key, hence the `Option`).  Keys not used
by any claim (`complexity`, `prerequisites`, `examples`, `applications`,
`children`, `importance`) are omitted. -/
structure GNode where
  id : String
  name : String
  kind : String
  level : Int
  size : Nat
  content : String
  color : Option String
deriving Repr, DecidableEq

/-- A link of the final graph: Python dict keys `source`, `target`,
`value`, `type`, `description` (the last two are absent on some links). -/
structure GLink where
  source : String
  target : String
  value : Nat
  kind : Option String
  description : Option String
deriving Repr, DecidableEq

/-- The final graph: `nodes` and `links` (metadata keys are not used by
any claim and are omitted). -/
structure Graph where
  nodes : List GNode
  links : List GLink
deriving Repr, DecidableEq

/-- The first 10 paragraphs visited by `create_simple_graph_from_text`. -/
def simpleParas (text : String) : List String := (stripSplit "\n\n" text).take 10

/-- The node `create_simple_graph_from_text` emits for one enumerated
paragraph. -/
def simpleNode (p : Nat × String) : GNode :=
  ⟨Nat.repr (p.1 + 1), pyTruncate 50 p.2,
   if p.1 < 5 then "sub_topic" else "key_point", 1,
   if p.1 < 5 then 25 else 20, p.2, none⟩

/-- The main title node of `create_simple_graph_from_text`. -/
def simpleRoot (text title : String) : GNode :=
  ⟨"0", title, "main_topic", 0, 40, pyTruncate 200 text, none⟩

/-- Embeds `create_simple_graph_from_text(text, title)` from `app.py`. -/
def create_simple_graph_from_text (text title : String) : Graph :=
  ⟨simpleRoot text title :: (simpleParas text).enum.map simpleNode,
   (simpleParas text).enum.map (fun p => (⟨"0", Nat.repr (p.1 + 1), 2, none, none⟩ : GLink))⟩

/-- A section of a structured document: Python dict keys `section_title`,
`content` (default `''`), `key_points` (default: none / empty). -/
structure DocSection where
  section_title : Option String
  content : String
  key_points : List String
deriving Repr, DecidableEq

/-- A structured educational document as consumed by
`generate_legacy_graph_data` and `_extract_from_structured_content`. -/
structure StructuredDoc where
  title : Option String
  executive_summary : Option String
  main_sections : List DocSection
  concepts_glossary : List (String × String)
  key_takeaways : List String
deriving Repr, DecidableEq

/-- Mutable state of the legacy builder loop: the `node_id` counter and
the accumulated `nodes` and `links` lists. -/
structure BuildSt where
  counter : Nat
  nodes : List GNode
  links : List GLink
deriving Repr

/-- Body of the key-point loop in `generate_legacy_graph_data`. -/
def addKeyPoint (sectionId : Nat) (st : BuildSt) (point : String) : BuildSt :=
  { counter := st.counter + 1
    nodes := st.nodes ++
      [⟨Nat.repr st.counter, pyTruncate 30 point, "key_point", 2, 20, point, none⟩]
    links := st.links ++ [⟨Nat.repr sectionId, Nat.repr st.counter, 2, none, none⟩] }

/-- Body of the main-section loop in `generate_legacy_graph_data`
(`p.1` is the `enumerate` index). -/
def addSection (st : BuildSt) (p : Nat × DocSection) : BuildSt :=
  let sectionId := st.counter
  let st1 : BuildSt :=
    { counter := st.counter + 1
      nodes := st.nodes ++
        [⟨Nat.repr st.counter, p.2.section_title.getD ("Section " ++ Nat.repr (p.1 + 1)),
          "sub_topic", 1, 30, pyTruncate 200 p.2.content, none⟩]
      links := st.links ++ [⟨"0", Nat.repr st.counter, 3, none, none⟩] }
  p.2.key_points.foldl (addKeyPoint sectionId) st1

/-- Body of the glossary loop in `generate_legacy_graph_data`. -/
def addConcept (mainId : Nat) (st : BuildSt) (p : String × String) : BuildSt :=
  { counter := st.counter + 1
    nodes := st.nodes ++ [⟨Nat.repr st.counter, p.1, "concept", 2, 25, p.2, none⟩]
    links := st.links ++ [⟨Nat.repr mainId, Nat.repr st.counter, 2, none, none⟩] }

/-- Body of the key-takeaways loop in `generate_legacy_graph_data`. -/
def addTakeaway (mainId : Nat) (st : BuildSt) (t : String) : BuildSt :=
  { counter := st.counter + 1
    nodes := st.nodes ++ [⟨Nat.repr st.counter, pyTruncate 30 t, "key_point", 2, 20, t, none⟩]
    links := st.links ++ [⟨Nat.repr mainId, Nat.repr st.counter, 2, none, none⟩] }

/-- The main title node of `generate_legacy_graph_data`. -/
def legacyRoot (d : StructuredDoc) (contentTitle : Option String) : GNode :=
  ⟨"0", d.title.getD (contentTitle.getD "Content"), "main_topic", 0, 40,
    d.executive_summary.getD "Main content", none⟩

/-- The `if structured_data.get('main_sections'):` block. -/
def legacySections (d : StructuredDoc) (st : BuildSt) : BuildSt :=
  if d.main_sections.isEmpty then st else d.main_sections.enum.foldl addSection st

/-- The `if structured_data.get('concepts_glossary'):` block: one
`Key Concepts` node linked to the root, then one node per glossary entry. -/
def legacyGlossary (d : StructuredDoc) (st : BuildSt) : BuildSt :=
  if d.concepts_glossary.isEmpty then st else
    let mainId := st.counter
    let stA : BuildSt :=
      { counter := st.counter + 1
        nodes := st.nodes ++
          [⟨Nat.repr st.counter, "Key Concepts", "sub_topic", 1, 30,
            "Important concepts and definitions", none⟩]
        links := st.links ++ [⟨"0", Nat.repr st.counter, 3, none, none⟩] }
    d.concepts_glossary.foldl (addConcept mainId) stA

/-- The `if structured_data.get('key_takeaways'):` block. -/
def legacyTakeaways (d : StructuredDoc) (st : BuildSt) : BuildSt :=
  if d.key_takeaways.isEmpty then st else
    let mainId := st.counter
    let stB : BuildSt :=
      { counter := st.counter + 1
        nodes := st.nodes ++
          [⟨Nat.repr st.counter, "Key Takeaways", "sub_topic", 1, 30,
            "Main lessons and insights", none⟩]
        links := st.links ++ [⟨"0", Nat.repr st.counter, 3, none, none⟩] }
    d.key_takeaways.foldl (addTakeaway mainId) stB

/-- Final loop state of the legacy structured builder. -/
def legacyFinalSt (d : StructuredDoc) (contentTitle : Option String) : BuildSt :=
  legacyTakeaways d (legacyGlossary d (legacySections d ⟨1, [legacyRoot d contentTitle], []⟩))

/-- Embeds `generate_legacy_graph_data` from `app.py`, on content whose JSON
parse succeeded and produced a structured document. -/
def generate_legacy_graph_data_structured (d : StructuredDoc) (contentTitle : Option String) :
    Graph :=
  ⟨(legacyFinalSt d contentTitle).nodes, (legacyFinalSt d contentTitle).links⟩

/-- A hierarchy node as produced by the AI backend or the fallback
builder.  `hid` models the optional `id` key (its Python default depends
on the title), `title` the optional `title` key (default depends on the
node counter); `description`, `kind` (= Python `type`) and `importance`
fold the fixed defaults `''`, `'concept'`, `'medium'`. -/
structure HNode where
  hid : Option String
  title : Option String
  description : String
  kind : String
  importance : String
deriving Repr, DecidableEq

/-- A hierarchy level: the `level` key (default 1 folded) and its nodes. -/
structure HLevel where
  level : Int
  nodes : List HNode
deriving Repr, DecidableEq

/-- A relationship: `source`/`target` fold the default `''`,
`relationship_type` the default `'related'`, `strength` the default
`'medium'`, `description` the default `''`. -/
structure HRel where
  source : String
  target : String
  relationship_type : String
  strength : String
  description : String
deriving Repr, DecidableEq

/-- The `main_topic` object (both keys optional). -/
structure MainTopic where
  title : Option String
  description : Option String
deriving Repr, DecidableEq

/-- The hierarchy object consumed by graph assembly. -/
structure Hierarchy where
  main_topic : MainTopic
  hierarchy_levels : List HLevel
  relationships : List HRel
deriving Repr, DecidableEq

/-- Python dict lookup with a `Nat` default (`d.get(k, dflt)`). -/
def dictGetNat (d : List (String × Nat)) (k : String) (dflt : Nat) : Nat :=
  ((d.find? (fun p => p.1 == k)).map Prod.snd).getD dflt

/-- Python dict lookup returning `None` when missing (`d.get(k)`). -/
def dictGetStr (d : List (String × String)) (k : String) : Option String :=
  (d.find? (fun p => p.1 == k)).map Prod.snd

/-- Python dict lookup with `Int` keys, returning `None` when missing. -/
def dictGetLevel (d : List (Int × String)) (k : Int) : Option String :=
  (d.find? (fun p => p.1 == k)).map Prod.snd

/-- The `size_map` dict of `generate_graph_data`. -/
def size_map : List (String × Nat) := [("high", 35), ("medium", 28), ("low", 22)]

/-- The `type_colors` dict of `generate_graph_data`. -/
def type_colors : List (String × String) :=
  [("concept", "#3b82f6"), ("definition", "#10b981"), ("principle", "#f59e0b"),
   ("example", "#ef4444"), ("application", "#8b5cf6")]

/-- The `level_colors` dict of `generate_graph_data`. -/
def level_colors : List (Int × String) :=
  [(1, "#3b82f6"), (2, "#10b981"), (3, "#f59e0b"), (4, "#ef4444"), (5, "#8b5cf6")]

/-- The `strength_values` dict of `generate_graph_data`. -/
def strength_values : List (String × Nat) := [("strong", 3), ("medium", 2), ("weak", 1)]

/-- Python `type_colors.get(node_type, level_colors.get(level_num, '#6b7280'))`. -/
def nodeColor (kind : String) (levelNum : Int) : String :=
  (dictGetStr type_colors kind).getD ((dictGetLevel level_colors levelNum).getD "#6b7280")

/-- The sequence of (level number, node) pairs visited by the nested
`for level_data ... for node_data ...` loops of `generate_graph_data`,
in visit order. -/
def flatNodes (h : Hierarchy) : List (Int × HNode) :=
  h.hierarchy_levels.flatMap (fun L => L.nodes.map (fun n => (L.level, n)))

/-- Python `node_data.get('title', ...)` with the counter-based default. -/
def hTitle (counter : Nat) (n : HNode) : String :=
  n.title.getD ("Node " ++ Nat.repr counter)

/-- Python `node_data.get('id', node_title.lower())` — the key stored into
`node_id_map`. -/
def hKey (counter : Nat) (n : HNode) : String :=
  n.hid.getD (hTitle counter n).toLower

/-- The graph node `generate_graph_data` emits for one hierarchy node
(`counter` is the value of `node_counter` at that iteration). -/
def mkGNode (counter : Nat) (p : Int × HNode) : GNode :=
  ⟨Nat.repr counter, hTitle counter p.2, p.2.kind, p.1,
   dictGetNat size_map p.2.importance 28, p.2.description,
   some (nodeColor p.2.kind p.1)⟩

/-- All hierarchy-node graph nodes in emission order (`node_counter`
starts at 1 after the root). -/
def hierNodes (h : Hierarchy) : List GNode :=
  (flatNodes h).enum.map (fun q => mkGNode (q.1 + 1) q.2)

/-- The `node_id_map` dict: starts as `('main', '0')`, then each visited node
inserts its key; later inserts shadow earlier ones (Python dict
overwrite), modelled by prepending. -/
def buildIdMap (h : Hierarchy) : List (String × String) :=
  (flatNodes h).enum.foldl
    (fun m q => (hKey (q.1 + 1) q.2.2, Nat.repr (q.1 + 1)) :: m) [("main", "0")]

/-- Lookup in the id map (first match = latest insert). -/
def mapGet (m : List (String × String)) (k : String) : Option String :=
  (m.find? (fun p => p.1 == k)).map Prod.snd

/-- The root-to-node `hierarchy` links: one per visited node whose level
equals 1, in visit order. -/
def hierLinks (h : Hierarchy) : List GLink :=
  (flatNodes h).enum.filterMap (fun q =>
    if q.2.1 == 1 then some ⟨"0", Nat.repr (q.1 + 1), 3, some "hierarchy", none⟩ else none)

/-- The link (if any) emitted for one relationship: both endpoints must
resolve through `node_id_map` to truthy (non-empty) values that differ. -/
def relLinkOf (m : List (String × String)) (r : HRel) : Option GLink :=
  match mapGet m r.source, mapGet m r.target with
  | some s, some t =>
    if s != "" && t != "" && s != t then
      some ⟨s, t, dictGetNat strength_values r.strength 2,
            some r.relationship_type, some r.description⟩
    else none
  | _, _ => none

/-- All relationship links, in relationship order. -/
def relLinks (h : Hierarchy) : List GLink :=
  h.relationships.filterMap (relLinkOf (buildIdMap h))

/-- The `basic_nodes` appended when only the main topic node exists. -/
def basicNodes : List GNode :=
  [⟨"1", "Key Concept 1", "concept", 1, 30, "Primary concept from the content",
    some "#3b82f6"⟩,
   ⟨"2", "Key Concept 2", "definition", 1, 28, "Secondary concept from the content",
    some "#10b981"⟩]

/-- The basic links appended together with `basicNodes`. -/
def basicLinks : List GLink :=
  [⟨"0", "1", 3, some "hierarchy", none⟩, ⟨"0", "2", 3, some "hierarchy", none⟩,
   ⟨"1", "2", 2, some "related", none⟩]

/-- The main-topic node emitted first by `generate_graph_data`. -/
def rootNode (h : Hierarchy) (contentTitle : Option String) : GNode :=
  ⟨"0", h.main_topic.title.getD (contentTitle.getD "Main Topic"), "main_topic", 0, 50,
   h.main_topic.description.getD "Central concept", some "#1e3a8a"⟩

/-- The hierarchy-to-graph assembly of `generate_graph_data` (`app.py`
lines 110–260): root node, per-node emission, relationship links, then
the minimum-viable padding when only the root node exists. -/
def generate_graph_data_hier (h : Hierarchy) (contentTitle : Option String) : Graph :=
  if (rootNode h contentTitle :: hierNodes h).length == 1 then
    ⟨(rootNode h contentTitle :: hierNodes h) ++ basicNodes,
     (hierLinks h ++ relLinks h) ++ basicLinks⟩
  else ⟨rootNode h contentTitle :: hierNodes h, hierLinks h ++ relLinks h⟩

/-- Input to the fallback hierarchy builder: a plain string or a
structured document (`isinstance(content, dict)` branching). -/
inductive ContentInput where
  | text (s : String)
  | doc (d : StructuredDoc)
deriving Repr, DecidableEq

/-- Python truthiness guard `if x:` for an optional string part of
`_extract_from_structured_content`. -/
def optParts (o : Option String) : List String :=
  match o with
  | some s => if s != "" then [s] else []
  | none => []

/-- The parts contributed by one section in
`_extract_from_structured_content`. -/
def sectionParts (sec : DocSection) : List String :=
  optParts sec.section_title ++ (if sec.content != "" then [sec.content] else [])
    ++ sec.key_points

/-- Embeds `_extract_from_structured_content` from `ai_service.py`. -/
def extractFromStructuredContent (d : StructuredDoc) : String :=
  String.intercalate " "
    (optParts d.title ++ optParts d.executive_summary
      ++ d.main_sections.flatMap sectionParts ++ d.key_takeaways)

/-- The text the fallback builder operates on. -/
def fallbackText : ContentInput → String
  | .text s => s
  | .doc d => extractFromStructuredContent d

/-- Python `[s.strip() for s in text.split('.') if s.strip() and len(s.strip()) > 20]`. -/
def sentencesOf (text : String) : List String :=
  ((pySplit "." text).map pyStrip).filter (fun s => s != "" && s.length > 20)

/-- Python `[p.strip() for p in text.split('\n\n') if p.strip()]`. -/
def paragraphsOf (text : String) : List String :=
  stripSplit "\n\n" text

/-- Python `main_concepts = sentences[:4] if len(sentences) >= 4 else paragraphs[:4]`. -/
def mainConceptsOf (text : String) : List String :=
  if (sentencesOf text).length ≥ 4 then (sentencesOf text).take 4
  else (paragraphsOf text).take 4

/-- Python `sub_concepts = sentences[4:8] if len(sentences) >= 8 else
paragraphs[4:8] if len(paragraphs) >= 8 else []`. -/
def subConceptsOf (text : String) : List String :=
  if (sentencesOf text).length ≥ 8 then ((sentencesOf text).drop 4).take 4
  else if (paragraphsOf text).length ≥ 8 then ((paragraphsOf text).drop 4).take 4
  else []

/-- A level-1 fallback node (`p.1` is the `enumerate` index). -/
def mkMainNode (p : Nat × String) : HNode :=
  ⟨some ("main_" ++ Nat.repr p.1), some (pyTruncate 60 p.2), p.2, "concept",
   if p.1 < 2 then "high" else "medium"⟩

/-- A level-2 fallback node. -/
def mkSubNode (p : Nat × String) : HNode :=
  ⟨some ("sub_" ++ Nat.repr p.1), some (pyTruncate 50 p.2), p.2, "definition", "medium"⟩

/-- The `hierarchy_levels` built by `_create_enhanced_fallback_hierarchy`:
level 1 when `main_concepts` is truthy, level 2 when `sub_concepts` is. -/
def fallbackLevels (text : String) : List HLevel :=
  (if (mainConceptsOf text).isEmpty then [] else
    [⟨1, (mainConceptsOf text).enum.map mkMainNode⟩])
  ++ (if (subConceptsOf text).isEmpty then [] else
    [⟨2, (subConceptsOf text).enum.map mkSubNode⟩])

/-- The relationships built by `_create_enhanced_fallback_hierarchy`:
emitted only when both levels exist, pairing `main_i` with `sub_i`. -/
def fallbackRels (text : String) : List HRel :=
  if (fallbackLevels text).length ≥ 2 then
    (List.range (min (mainConceptsOf text).length (subConceptsOf text).length)).map
      (fun i => ⟨"main_" ++ Nat.repr i, "sub_" ++ Nat.repr i, "related", "medium", ""⟩)
  else []

/-- The hierarchy built by the `try` body of
`_create_enhanced_fallback_hierarchy` on extracted text. -/
def createEnhancedFallbackHierarchy (text : String) : Hierarchy :=
  ⟨⟨some "Content Analysis", some "Structured breakdown of the content"⟩,
   fallbackLevels text, fallbackRels text⟩

/-- The `try` body of `_create_enhanced_fallback_hierarchy`.  Every
operation it performs (string split/strip/slice, list slicing and
enumeration, string formatting) is total on well-typed inputs, so the
embedded body always returns `ok`. -/
def fallbackBody (c : ContentInput) : Except String Hierarchy :=
  Except.ok (createEnhancedFallbackHierarchy (fallbackText c))

/-- The minimal hard-coded hierarchy returned by the `except` branch of
`_create_enhanced_fallback_hierarchy`. -/
def minimalFallbackHierarchy : Hierarchy :=
  ⟨⟨some "Content", some "Basic content structure"⟩,
   [⟨1, [⟨some "main_topic", some "Main Content", "Primary content area", "concept",
          "high"⟩]⟩],
   []⟩

/-- Embeds `_create_enhanced_fallback_hierarchy` with its `try`/`except`
structure. -/
def create_enhanced_fallback_hierarchy (c : ContentInput) : Hierarchy :=
  match fallbackBody c with
  | .ok h => h
  | .error _ => minimalFallbackHierarchy

/-- Embeds `generate_hierarchical_graph_structure` after a successful parse of
the backend response: the validator rejects an absent/empty
`hierarchy_levels` and falls back. -/
def generate_hierarchical_graph_structure_parsed (resp : Hierarchy) (c : ContentInput) :
    Hierarchy :=
  if resp.hierarchy_levels.isEmpty then create_enhanced_fallback_hierarchy c else resp

/-- The whole pipeline when the AI model is `None`:
`generate_hierarchical_graph_structure` immediately returns the fallback
hierarchy (which never carries an `error` key), and `generate_graph_data`
assembles it. -/
def generate_graph_data_noModel (text : String) (title : Option String) : Graph :=
  generate_graph_data_hier (create_enhanced_fallback_hierarchy (.text text)) title

/-- Outcome of the AI-service call as seen by `generate_graph_data`: a
dict containing an `error` key (driving the legacy path) or a hierarchy. -/
inductive AIOutcome where
  | failure
  | hier (h : Hierarchy)

/-- A stored content record: `title` key and `content` field.  A string
`content` either fails JSON parsing (raw text, simple-graph path) or
parses to a structured document (legacy structured path). -/
inductive ContentPayload where
  | rawText (s : String)
  | jsonDoc (d : StructuredDoc)

/-- The content record as consumed by the graph builders. -/
structure ContentRecord where
  title : Option String
  content : ContentPayload

/-- Embeds `generate_legacy_graph_data` from `app.py`: JSON-parse dispatch
between the structured builder and the simple text builder. -/
def generate_legacy_graph_data (c : ContentRecord) : Graph :=
  match c.content with
  | .rawText s => create_simple_graph_from_text s (c.title.getD "Content")
  | .jsonDoc d => generate_legacy_graph_data_structured d c.title

/-- Embeds `generate_graph_data` from `app.py`: on an AI-service error fall to
the legacy builder, otherwise assemble the hierarchy. -/
def generate_graph_data (ai : AIOutcome) (c : ContentRecord) : Graph :=
  match ai with
  | .failure => generate_legacy_graph_data c
  | .hier h => generate_graph_data_hier h c.title

/-- Link referential integrity: every link endpoint names a node id. -/
def linksOK (g : Graph) : Prop :=
  ∀ l ∈ g.links, (∃ n ∈ g.nodes, n.id = l.source) ∧ (∃ n ∈ g.nodes, n.id = l.target)

/-! Facts about `Nat.repr` (Python `str(n)`): injectivity, and that it is
never `"0"` for a positive number and never empty.  We relate the
fuel-driven `Nat.toDigitsCore` to a reference digit-list function. -/

/-- Reference decimal digit list (most significant first). -/
def decDigits (n : Nat) : List Char :=
  if h : n / 10 = 0 then [Nat.digitChar (n % 10)]
  else decDigits (n / 10) ++ [Nat.digitChar (n % 10)]
decreasing_by
  have hn : n ≠ 0 := by
    intro h0
    subst h0
    simp at h
  exact Nat.div_lt_self (Nat.pos_of_ne_zero hn) (by decide)

/-- Decimal value of a digit list. -/
def dv (l : List Char) : Nat := l.foldl (fun a c => 10 * a + (c.toNat - 48)) 0

/-- Invariant threaded through the legacy builder loops. -/
def StInv (rootN : GNode) (st : BuildSt) : Prop :=
  1 ≤ st.counter ∧
  (∃ rest, st.nodes = rootN :: rest) ∧
  (st.nodes.filter (fun n => n.id == "0")).length = 1 ∧
  (∀ k, 1 ≤ k → k < st.counter → Nat.repr k ∈ st.nodes.map GNode.id) ∧
  "0" ∈ st.nodes.map GNode.id ∧
  (∀ l ∈ st.links, l.source ∈ st.nodes.map GNode.id ∧ l.target ∈ st.nodes.map GNode.id)

/-- The root invariant: nodes non-empty, the first node is the root with
id `"0"` and level 0, and no other node carries id `"0"`. -/
def rootOK (g : Graph) : Prop :=
  g.nodes ≠ [] ∧ (∃ r, g.nodes.head? = some r ∧ r.id = "0" ∧ r.level = 0) ∧
  (g.nodes.filter (fun n => n.id == "0")).length = 1

/-- The node colour choice as the spec words it: type table first, then
the level table, then gray. -/
def specNodeColor (kind : String) (lvl : Int) : String :=
  if kind = "concept" then "#3b82f6" else if kind = "definition" then "#10b981"
  else if kind = "principle" then "#f59e0b" else if kind = "example" then "#ef4444"
  else if kind = "application" then "#8b5cf6"
  else if lvl = 1 then "#3b82f6" else if lvl = 2 then "#10b981"
  else if lvl = 3 then "#f59e0b" else if lvl = 4 then "#ef4444"
  else if lvl = 5 then "#8b5cf6" else "#6b7280"

/-- Concrete hierarchy used to witness claim 5: two nodes and a strong
relationship between them. -/
def c5h : Hierarchy :=
  ⟨⟨some "T", none⟩,
   [⟨1, [⟨some "a", some "A", "da", "concept", "high"⟩,
         ⟨some "b", some "B", "db", "definition", "low"⟩]⟩],
   [⟨"a", "b", "supports", "strong", "d"⟩]⟩

/-- The relationship of `c5h`. -/
def c5r : HRel := ⟨"a", "b", "supports", "strong", "d"⟩

/-- Concrete hierarchy used to witness claim 6. -/
def c6h : Hierarchy :=
  ⟨⟨some "T", none⟩, [⟨1, [⟨some "a", some "A", "d", "concept", "high"⟩]⟩], []⟩

/-- The single flattened (level, node) pair of `c6h`. -/
def c6p : Int × HNode := (1, ⟨some "a", some "A", "d", "concept", "high"⟩)

/-- A 200-character sentence used to witness claim 7. -/
def c7s : String := String.mk (List.replicate 200 'a')

/-- Concrete hierarchy used to witness claim 10: one level-2 node with
id `x`, one relationship from the undeclared id `main` to `x`, and one
from `x` to `main`. -/
def c10h : Hierarchy :=
  ⟨⟨none, none⟩, [⟨2, [⟨some "x", some "X", "dx", "concept", "high"⟩]⟩],
   [⟨"main", "x", "related", "strong", ""⟩, ⟨"x", "main", "related", "weak", ""⟩]⟩

/-- The source-position relationship of `c10h`. -/
def c10r : HRel := ⟨"main", "x", "related", "strong", ""⟩

/-- The target-position relationship of `c10h`. -/
def c10r2 : HRel := ⟨"x", "main", "related", "weak", ""⟩

theorem decDigits_ne_nil (n : Nat) : decDigits n ≠ [] := by
  unfold decDigits
  split <;> simp

theorem digitChar_toNat (r : Nat) (h : r < 10) : (Nat.digitChar r).toNat = 48 + r := by
  interval_cases r <;> decide

theorem dv_decDigits (n : Nat) : dv (decDigits n) = n := by
  induction n using Nat.strong_induction_on with
  | _ n ih =>
    have h10 : n % 10 < 10 := Nat.mod_lt _ (by decide)
    unfold decDigits
    split
    · rename_i h
      simp [dv, digitChar_toNat _ h10]
      omega
    · rename_i h
      have hlt : n / 10 < n := Nat.div_lt_self (by omega) (by decide)
      have hrec := ih (n / 10) hlt
      show dv (decDigits (n / 10) ++ [Nat.digitChar (n % 10)]) = n
      unfold dv
      rw [List.foldl_append]
      unfold dv at hrec
      rw [hrec]
      simp only [List.foldl_cons, List.foldl_nil]
      rw [digitChar_toNat _ h10]
      omega

theorem toDigitsCore_eq_decDigits (f : Nat) :
    ∀ (n : Nat) (acc : List Char), n < f →
      Nat.toDigitsCore 10 f n acc = decDigits n ++ acc := by
  induction f with
  | zero => intro n acc h; omega
  | succ f ih =>
    intro n acc h
    have hstep : Nat.toDigitsCore 10 (f + 1) n acc =
        if n / 10 = 0 then Nat.digitChar (n % 10) :: acc
        else Nat.toDigitsCore 10 f (n / 10) (Nat.digitChar (n % 10) :: acc) := rfl
    rw [hstep]
    by_cases hdiv : n / 10 = 0
    · rw [if_pos hdiv]
      rw [show decDigits n = [Nat.digitChar (n % 10)] from by unfold decDigits; simp [hdiv]]
      simp
    · rw [if_neg hdiv, ih (n / 10) _ (by omega)]
      rw [show decDigits n = decDigits (n / 10) ++ [Nat.digitChar (n % 10)] from by
        conv_lhs => unfold decDigits
        simp [hdiv]]
      simp

theorem repr_eq_decDigits (n : Nat) : Nat.repr n = (decDigits n).asString := by
  show (Nat.toDigits 10 n).asString = _
  rw [Nat.toDigits, toDigitsCore_eq_decDigits (n + 1) n [] (by omega)]
  simp

theorem repr_inj {m n : Nat} (h : Nat.repr m = Nat.repr n) : m = n := by
  rw [repr_eq_decDigits, repr_eq_decDigits] at h
  have hl : decDigits m = decDigits n := congrArg String.data h
  have hv := congrArg dv hl
  rw [dv_decDigits, dv_decDigits] at hv
  exact hv

theorem repr_ne_zero {n : Nat} (h : n ≠ 0) : Nat.repr n ≠ "0" := by
  intro he
  have h0 : Nat.repr 0 = "0" := rfl
  exact h (repr_inj (he.trans h0.symm))

theorem repr_ne_empty (n : Nat) : Nat.repr n ≠ "" := by
  intro he
  have hmk : (decDigits n).asString = ([] : List Char).asString := by
    rw [← repr_eq_decDigits, he]
    rfl
  exact decDigits_ne_nil n (congrArg String.data hmk)

/-! Invariant of the legacy builder state: the counter stays positive,
the root node stays at the head, exactly one node carries id `"0"`, every
counter value below the current one is some node's id, and every link's
endpoints are node ids. -/

theorem StInv.step {rootN : GNode} {st : BuildSt} (inv : StInv rootN st)
    (gn : GNode) (gl : GLink) (hid : gn.id = Nat.repr st.counter)
    (hsrc : gl.source = "0" ∨ ∃ k, 1 ≤ k ∧ k < st.counter ∧ gl.source = Nat.repr k)
    (htgt : gl.target = Nat.repr st.counter) :
    StInv rootN ⟨st.counter + 1, st.nodes ++ [gn], st.links ++ [gl]⟩ := by
  obtain ⟨hc, ⟨rest, hnodes⟩, hfilter, hsurj, hzero, hlinks⟩ := inv
  have hne : gn.id ≠ "0" := by
    rw [hid]
    exact repr_ne_zero (by omega)
  refine ⟨by show 1 ≤ st.counter + 1; omega, ⟨rest ++ [gn], by rw [hnodes]; rfl⟩, ?_, ?_, ?_, ?_⟩
  · show (List.filter (fun n => n.id == "0") (st.nodes ++ [gn])).length = 1
    rw [List.filter_append]
    have hfil : List.filter (fun n => n.id == "0") [gn] = [] := by
      have hb : (gn.id == "0") = false := by simp [hne]
      simp [List.filter_cons, hb]
    simp [hfil, hfilter]
  · intro k hk1 hk2
    have hk2' : k < st.counter + 1 := hk2
    show Nat.repr k ∈ List.map GNode.id (st.nodes ++ [gn])
    rcases Nat.lt_or_ge k st.counter with hlt | hge
    · have := hsurj k hk1 hlt
      simp only [List.map_append, List.mem_append]
      exact Or.inl this
    · have hkc : k = st.counter := by omega
      simp only [List.map_append, List.mem_append, List.map_cons, List.map_nil,
        List.mem_cons]
      exact Or.inr (by simp [hkc, hid])
  · show "0" ∈ List.map GNode.id (st.nodes ++ [gn])
    simp only [List.map_append, List.mem_append]
    exact Or.inl hzero
  · intro l hl
    replace hl : l ∈ st.links ++ [gl] := hl
    show l.source ∈ List.map GNode.id (st.nodes ++ [gn]) ∧
      l.target ∈ List.map GNode.id (st.nodes ++ [gn])
    rcases List.mem_append.mp hl with hmem | hmem
    · have := hlinks l hmem
      simp only [List.map_append, List.mem_append]
      exact ⟨Or.inl this.1, Or.inl this.2⟩
    · have hlg : l = gl := by simpa using hmem
      subst hlg
      constructor
      · rcases hsrc with h0 | ⟨k, hk1, hk2, hks⟩
        · simp only [List.map_append, List.mem_append]
          exact Or.inl (h0 ▸ hzero)
        · simp only [List.map_append, List.mem_append]
          exact Or.inl (hks ▸ hsurj k hk1 hk2)
      · simp only [List.map_append, List.mem_append, List.map_cons, List.map_nil,
          List.mem_cons]
        exact Or.inr (by simp [htgt, hid])

theorem stinv_foldl_keypoints {rootN : GNode} (sectionId : Nat) (h1 : 1 ≤ sectionId) :
    ∀ (pts : List String) (st : BuildSt), StInv rootN st → sectionId < st.counter →
      StInv rootN (pts.foldl (addKeyPoint sectionId) st) ∧
        st.counter ≤ (pts.foldl (addKeyPoint sectionId) st).counter := by
  intro pts
  induction pts with
  | nil => exact fun st inv _ => ⟨inv, Nat.le_refl _⟩
  | cons p pts ih =>
    intro st inv hlt
    have step : StInv rootN (addKeyPoint sectionId st p) :=
      inv.step _ _ rfl (Or.inr ⟨sectionId, h1, hlt, rfl⟩) rfl
    have hlt2 : sectionId < (addKeyPoint sectionId st p).counter := by
      show sectionId < st.counter + 1
      omega
    have h2 := ih (addKeyPoint sectionId st p) step hlt2
    have h3 : st.counter + 1 ≤
        (pts.foldl (addKeyPoint sectionId) (addKeyPoint sectionId st p)).counter := h2.2
    refine ⟨h2.1, ?_⟩
    show st.counter ≤ (pts.foldl (addKeyPoint sectionId) (addKeyPoint sectionId st p)).counter
    omega

theorem stinv_addSection {rootN : GNode} {st : BuildSt} (inv : StInv rootN st)
    (p : Nat × DocSection) :
    StInv rootN (addSection st p) ∧ st.counter ≤ (addSection st p).counter := by
  have step : StInv rootN
      ⟨st.counter + 1,
        st.nodes ++
          [⟨Nat.repr st.counter, p.2.section_title.getD ("Section " ++ Nat.repr (p.1 + 1)),
            "sub_topic", 1, 30, pyTruncate 200 p.2.content, none⟩],
        st.links ++ [⟨"0", Nat.repr st.counter, 3, none, none⟩]⟩ :=
    inv.step _ _ rfl (Or.inl rfl) rfl
  have h2 := stinv_foldl_keypoints st.counter inv.1 p.2.key_points _ step
    (Nat.lt_succ_self st.counter)
  refine ⟨h2.1, ?_⟩
  have h3 : st.counter + 1 ≤ (addSection st p).counter := h2.2
  omega

theorem stinv_foldl_sections {rootN : GNode} :
    ∀ (secs : List (Nat × DocSection)) (st : BuildSt), StInv rootN st →
      StInv rootN (secs.foldl addSection st) ∧ st.counter ≤ (secs.foldl addSection st).counter := by
  intro secs
  induction secs with
  | nil => exact fun st inv => ⟨inv, Nat.le_refl _⟩
  | cons p secs ih =>
    intro st inv
    have h1 := stinv_addSection inv p
    have h2 := ih _ h1.1
    exact ⟨h2.1, le_trans h1.2 h2.2⟩

theorem stinv_foldl_concepts {rootN : GNode} (mainId : Nat) (h1 : 1 ≤ mainId) :
    ∀ (gs : List (String × String)) (st : BuildSt), StInv rootN st → mainId < st.counter →
      StInv rootN (gs.foldl (addConcept mainId) st) ∧
        st.counter ≤ (gs.foldl (addConcept mainId) st).counter := by
  intro gs
  induction gs with
  | nil => exact fun st inv _ => ⟨inv, Nat.le_refl _⟩
  | cons g gs ih =>
    intro st inv hlt
    have step : StInv rootN (addConcept mainId st g) :=
      inv.step _ _ rfl (Or.inr ⟨mainId, h1, hlt, rfl⟩) rfl
    have hlt2 : mainId < (addConcept mainId st g).counter := by
      show mainId < st.counter + 1
      omega
    have h2 := ih (addConcept mainId st g) step hlt2
    have h3 : st.counter + 1 ≤
        (gs.foldl (addConcept mainId) (addConcept mainId st g)).counter := h2.2
    refine ⟨h2.1, ?_⟩
    show st.counter ≤ (gs.foldl (addConcept mainId) (addConcept mainId st g)).counter
    omega

theorem stinv_foldl_takeaways {rootN : GNode} (mainId : Nat) (h1 : 1 ≤ mainId) :
    ∀ (ts : List String) (st : BuildSt), StInv rootN st → mainId < st.counter →
      StInv rootN (ts.foldl (addTakeaway mainId) st) ∧
        st.counter ≤ (ts.foldl (addTakeaway mainId) st).counter := by
  intro ts
  induction ts with
  | nil => exact fun st inv _ => ⟨inv, Nat.le_refl _⟩
  | cons t ts ih =>
    intro st inv hlt
    have step : StInv rootN (addTakeaway mainId st t) :=
      inv.step _ _ rfl (Or.inr ⟨mainId, h1, hlt, rfl⟩) rfl
    have hlt2 : mainId < (addTakeaway mainId st t).counter := by
      show mainId < st.counter + 1
      omega
    have h2 := ih (addTakeaway mainId st t) step hlt2
    have h3 : st.counter + 1 ≤
        (ts.foldl (addTakeaway mainId) (addTakeaway mainId st t)).counter := h2.2
    refine ⟨h2.1, ?_⟩
    show st.counter ≤ (ts.foldl (addTakeaway mainId) (addTakeaway mainId st t)).counter
    omega

theorem stinv_legacySections {rootN : GNode} {st : BuildSt} (inv : StInv rootN st)
    (d : StructuredDoc) : StInv rootN (legacySections d st) := by
  unfold legacySections
  split
  · exact inv
  · exact (stinv_foldl_sections _ _ inv).1

theorem stinv_legacyGlossary {rootN : GNode} {st : BuildSt} (inv : StInv rootN st)
    (d : StructuredDoc) : StInv rootN (legacyGlossary d st) := by
  unfold legacyGlossary
  split
  · exact inv
  · have step : StInv rootN
        ⟨st.counter + 1,
          st.nodes ++
            [⟨Nat.repr st.counter, "Key Concepts", "sub_topic", 1, 30,
              "Important concepts and definitions", none⟩],
          st.links ++ [⟨"0", Nat.repr st.counter, 3, none, none⟩]⟩ :=
      inv.step _ _ rfl (Or.inl rfl) rfl
    exact (stinv_foldl_concepts st.counter inv.1 _ _ step (Nat.lt_succ_self st.counter)).1

theorem stinv_legacyTakeaways {rootN : GNode} {st : BuildSt} (inv : StInv rootN st)
    (d : StructuredDoc) : StInv rootN (legacyTakeaways d st) := by
  unfold legacyTakeaways
  split
  · exact inv
  · have step : StInv rootN
        ⟨st.counter + 1,
          st.nodes ++
            [⟨Nat.repr st.counter, "Key Takeaways", "sub_topic", 1, 30,
              "Main lessons and insights", none⟩],
          st.links ++ [⟨"0", Nat.repr st.counter, 3, none, none⟩]⟩ :=
      inv.step _ _ rfl (Or.inl rfl) rfl
    exact (stinv_foldl_takeaways st.counter inv.1 _ _ step (Nat.lt_succ_self st.counter)).1

theorem stinv_init (rootN : GNode) (hid : rootN.id = "0") :
    StInv rootN ⟨1, [rootN], []⟩ := by
  refine ⟨Nat.le_refl 1, ⟨[], rfl⟩, ?_, ?_, ?_, ?_⟩
  · simp [List.filter, hid]
  · intro k hk1 hk2
    have hk2' : k < 1 := hk2
    omega
  · simp [hid]
  · intro l hl
    simp at hl

theorem legacy_structured_inv (d : StructuredDoc) (t : Option String) :
    StInv (legacyRoot d t) (legacyFinalSt d t) :=
  stinv_legacyTakeaways (stinv_legacyGlossary (stinv_legacySections
    (stinv_init _ rfl) d) d) d

/-! Characterisation of the assembler's id map and relationship links. -/

theorem foldl_prepend {α β : Type} (f : α → β) (l : List α) :
    ∀ init : List β, l.foldl (fun m a => f a :: m) init = (l.map f).reverse ++ init := by
  induction l with
  | nil => intro init; rfl
  | cons a l ih =>
    intro init
    show l.foldl (fun m a => f a :: m) (f a :: init) = ((a :: l).map f).reverse ++ init
    rw [ih]
    simp

theorem buildIdMap_eq (h : Hierarchy) :
    buildIdMap h = ((flatNodes h).enum.map
      (fun q => (hKey (q.1 + 1) q.2.2, Nat.repr (q.1 + 1)))).reverse ++ [("main", "0")] := by
  unfold buildIdMap
  exact foldl_prepend _ _ _

theorem mapGet_mem {m : List (String × String)} {k v : String}
    (hv : mapGet m k = some v) : ∃ p ∈ m, p.1 = k ∧ p.2 = v := by
  unfold mapGet at hv
  cases hf : m.find? (fun p => p.1 == k) with
  | none => rw [hf] at hv; simp at hv
  | some p =>
    rw [hf] at hv
    simp at hv
    refine ⟨p, List.mem_of_find?_eq_some hf, ?_, hv⟩
    have := List.find?_some hf
    simpa using this

/-- Every value stored in the id map is `"0"` (the pre-seeded root) or
the assigned id of a visited hierarchy node. -/
theorem mapGet_buildIdMap_cases {h : Hierarchy} {k v : String}
    (hv : mapGet (buildIdMap h) k = some v) :
    v = "0" ∨ ∃ q ∈ (flatNodes h).enum, v = Nat.repr (q.1 + 1) := by
  obtain ⟨p, hp, hk, hpv⟩ := mapGet_mem hv
  rw [buildIdMap_eq] at hp
  rcases List.mem_append.mp hp with hmem | hmem
  · rw [List.mem_reverse] at hmem
    obtain ⟨q, hq, hqe⟩ := List.mem_map.mp hmem
    right
    refine ⟨q, hq, ?_⟩
    rw [← hpv, ← hqe]
  · left
    have hpm : p = ("main", "0") := by simpa using hmem
    rw [← hpv, hpm]

theorem mapGet_buildIdMap_ne_empty {h : Hierarchy} {k v : String}
    (hv : mapGet (buildIdMap h) k = some v) : v ≠ "" := by
  rcases mapGet_buildIdMap_cases hv with h0 | ⟨q, _, hq⟩
  · rw [h0]; decide
  · rw [hq]; exact repr_ne_empty _

theorem relLinkOf_some {m : List (String × String)} {r : HRel} {l : GLink}
    (hl : relLinkOf m r = some l) :
    ∃ s t, mapGet m r.source = some s ∧ mapGet m r.target = some t ∧
      s ≠ "" ∧ t ≠ "" ∧ s ≠ t ∧
      l = ⟨s, t, dictGetNat strength_values r.strength 2,
            some r.relationship_type, some r.description⟩ := by
  unfold relLinkOf at hl
  split at hl
  · rename_i s t hs ht
    split at hl
    · rename_i hcond
      simp only [Bool.and_eq_true, bne_iff_ne, ne_eq] at hcond
      refine ⟨s, t, hs, ht, hcond.1.1, hcond.1.2, hcond.2, ?_⟩
      exact (Option.some.injEq _ _ ▸ hl).symm
    · exact absurd hl (by simp)
  · exact absurd hl (by simp)

theorem mkGNode_id (c : Nat) (p : Int × HNode) : (mkGNode c p).id = Nat.repr c := rfl

theorem mem_hierNodes_of_enum {h : Hierarchy} {q : Nat × (Int × HNode)}
    (hq : q ∈ (flatNodes h).enum) : mkGNode (q.1 + 1) q.2 ∈ hierNodes h :=
  List.mem_map.mpr ⟨q, hq, rfl⟩

theorem hierNodes_mem {h : Hierarchy} {n : GNode} (hn : n ∈ hierNodes h) :
    ∃ q ∈ (flatNodes h).enum, n = mkGNode (q.1 + 1) q.2 := by
  obtain ⟨q, hq, he⟩ := List.mem_map.mp hn
  exact ⟨q, hq, he.symm⟩

/-- Any id-map value names a node of the assembled node list. -/
theorem mapGet_node_exists {h : Hierarchy} (tt : Option String) {k v : String}
    (hv : mapGet (buildIdMap h) k = some v) :
    ∃ n ∈ rootNode h tt :: hierNodes h, n.id = v := by
  rcases mapGet_buildIdMap_cases hv with h0 | ⟨q, hq, hqe⟩
  · exact ⟨rootNode h tt, by simp, by rw [h0]; rfl⟩
  · exact ⟨mkGNode (q.1 + 1) q.2, by simp [mem_hierNodes_of_enum hq], by rw [hqe]; rfl⟩

theorem hierNodes_eq_nil_iff (h : Hierarchy) : hierNodes h = [] ↔ flatNodes h = [] := by
  unfold hierNodes
  rw [List.map_eq_nil_iff, List.enum_eq_nil]

theorem relLinks_flat_nil {h : Hierarchy} (hf : flatNodes h = []) : relLinks h = [] := by
  unfold relLinks
  rw [List.filterMap_eq_nil_iff]
  intro r hr
  have hm : buildIdMap h = [("main", "0")] := by rw [buildIdMap_eq]; simp [hf]
  cases hs : relLinkOf (buildIdMap h) r with
  | none => rfl
  | some l =>
    obtain ⟨s, t, hsv, htv, _, _, hst, _⟩ := relLinkOf_some hs
    obtain ⟨p1, hp1, _, hpv1⟩ := mapGet_mem hsv
    obtain ⟨p2, hp2, _, hpv2⟩ := mapGet_mem htv
    rw [hm] at hp1 hp2
    have h1 : s = "0" := by
      have : p1 = ("main", "0") := by simpa using hp1
      rw [← hpv1, this]
    have h2 : t = "0" := by
      have : p2 = ("main", "0") := by simpa using hp2
      rw [← hpv2, this]
    exact absurd (h1.trans h2.symm) hst

theorem hierLinks_flat_nil {h : Hierarchy} (hf : flatNodes h = []) : hierLinks h = [] := by
  unfold hierLinks
  rw [hf]
  rfl

theorem hierLinks_mem {h : Hierarchy} {l : GLink} (hl : l ∈ hierLinks h) :
    ∃ q ∈ (flatNodes h).enum, q.2.1 = 1 ∧
      l = ⟨"0", Nat.repr (q.1 + 1), 3, some "hierarchy", none⟩ := by
  obtain ⟨q, hq, hqe⟩ := List.mem_filterMap.mp hl
  refine ⟨q, hq, ?_⟩
  split at hqe
  · rename_i hcond
    simp only [beq_iff_eq] at hcond
    exact ⟨hcond, (Option.some.injEq _ _ ▸ hqe).symm⟩
  · exact absurd hqe (by simp)

/-! Root invariant (claim 1) and link integrity (claim 2), one lemma per
builder. -/

theorem filter_zero_count (rootN : GNode) (rest : List GNode) (hroot : rootN.id = "0")
    (hrest : ∀ n ∈ rest, n.id ≠ "0") :
    ((rootN :: rest).filter (fun n => n.id == "0")).length = 1 := by
  have hnil : rest.filter (fun n => n.id == "0") = [] :=
    List.filter_eq_nil_iff.mpr (by intro a ha; simp [hrest a ha])
  rw [List.filter_cons]
  simp [hroot, hnil]

theorem simple_rootOK (text title : String) :
    rootOK (create_simple_graph_from_text text title) := by
  unfold create_simple_graph_from_text rootOK
  refine ⟨by simp, ⟨_, rfl, rfl, rfl⟩, ?_⟩
  apply filter_zero_count _ _ rfl
  intro n hn
  obtain ⟨p, hp, he⟩ := List.mem_map.mp hn
  rw [← he]
  exact repr_ne_zero (by omega)

theorem simple_linksOK (text title : String) :
    linksOK (create_simple_graph_from_text text title) := by
  unfold create_simple_graph_from_text linksOK
  intro l hl
  obtain ⟨p, hp, he⟩ := List.mem_map.mp hl
  constructor
  · refine ⟨simpleRoot text title, by simp, ?_⟩
    rw [← he]
    rfl
  · refine ⟨simpleNode p, ?_, ?_⟩
    · simp only [List.mem_cons]
      exact Or.inr (List.mem_map.mpr ⟨p, hp, rfl⟩)
    · rw [← he]
      rfl

theorem legacy_rootOK (d : StructuredDoc) (t : Option String) :
    rootOK (generate_legacy_graph_data_structured d t) := by
  have inv := legacy_structured_inv d t
  obtain ⟨hc, ⟨rest, hnodes⟩, hfilter, _, _, _⟩ := inv
  unfold generate_legacy_graph_data_structured rootOK
  refine ⟨?_, ?_, ?_⟩
  · show (legacyFinalSt d t).nodes ≠ []
    rw [hnodes]
    simp
  · refine ⟨legacyRoot d t, ?_, rfl, rfl⟩
    show (legacyFinalSt d t).nodes.head? = some (legacyRoot d t)
    rw [hnodes]
    rfl
  · exact hfilter

theorem legacy_linksOK (d : StructuredDoc) (t : Option String) :
    linksOK (generate_legacy_graph_data_structured d t) := by
  have inv := legacy_structured_inv d t
  obtain ⟨_, _, _, _, _, hlinks⟩ := inv
  unfold generate_legacy_graph_data_structured linksOK
  intro l hl
  have hh := hlinks l hl
  constructor
  · obtain ⟨n, hn, hid⟩ := List.mem_map.mp hh.1
    exact ⟨n, hn, hid⟩
  · obtain ⟨n, hn, hid⟩ := List.mem_map.mp hh.2
    exact ⟨n, hn, hid⟩

theorem hier_rootOK (h : Hierarchy) (t : Option String) :
    rootOK (generate_graph_data_hier h t) := by
  have hrest : ∀ n ∈ hierNodes h, n.id ≠ "0" := by
    intro n hn
    obtain ⟨q, _, he⟩ := hierNodes_mem hn
    rw [he, mkGNode_id]
    exact repr_ne_zero (by omega)
  unfold generate_graph_data_hier
  split
  · refine ⟨by simp, ⟨rootNode h t, by simp, rfl, rfl⟩, ?_⟩
    rw [List.cons_append]
    apply filter_zero_count _ _ rfl
    intro n hn
    rcases List.mem_append.mp hn with hmem | hmem
    · exact hrest n hmem
    · rcases (by simpa [basicNodes] using hmem : n = _ ∨ n = _) with rfl | rfl <;> decide
  · exact ⟨by simp, ⟨rootNode h t, by simp, rfl, rfl⟩, filter_zero_count _ _ rfl hrest⟩

theorem hier_linksOK (h : Hierarchy) (t : Option String) :
    linksOK (generate_graph_data_hier h t) := by
  unfold generate_graph_data_hier linksOK
  split
  · rename_i hcond
    have hn : hierNodes h = [] := by
      simp only [beq_iff_eq, List.length_cons] at hcond
      exact List.eq_nil_of_length_eq_zero (by omega)
    have hf : flatNodes h = [] := (hierNodes_eq_nil_iff h).mp hn
    intro l hl
    rw [hierLinks_flat_nil hf, relLinks_flat_nil hf] at hl
    simp only [List.nil_append, List.nil_append] at hl
    have hb : l ∈ basicLinks := hl
    rcases (by simpa [basicLinks] using hb : l = _ ∨ l = _ ∨ l = _) with rfl | rfl | rfl
    · exact ⟨⟨rootNode h t, by simp, rfl⟩, ⟨basicNodes[0], by simp [basicNodes], rfl⟩⟩
    · exact ⟨⟨rootNode h t, by simp, rfl⟩, ⟨basicNodes[1], by simp [basicNodes], rfl⟩⟩
    · exact ⟨⟨basicNodes[0], by simp [basicNodes], rfl⟩,
        ⟨basicNodes[1], by simp [basicNodes], rfl⟩⟩
  · intro l hl
    rcases List.mem_append.mp hl with hmem | hmem
    · obtain ⟨q, hq, _, rfl⟩ := hierLinks_mem hmem
      exact ⟨⟨rootNode h t, by simp, rfl⟩,
        ⟨mkGNode (q.1 + 1) q.2, by simp [mem_hierNodes_of_enum hq], rfl⟩⟩
    · obtain ⟨r, hr, hre⟩ := List.mem_filterMap.mp hmem
      obtain ⟨s, tg, hs, htg, _, _, _, rfl⟩ := relLinkOf_some hre
      exact ⟨mapGet_node_exists t hs, mapGet_node_exists t htg⟩

theorem hier_nodes_ge_two (h : Hierarchy) (t : Option String) :
    2 ≤ (generate_graph_data_hier h t).nodes.length := by
  unfold generate_graph_data_hier
  split
  · simp [basicNodes]
  · rename_i hcond
    simp only [beq_iff_eq, List.length_cons] at hcond ⊢
    omega

/-- C1: for every content record whose content field is a non-null
string, the graph derivation pipeline (`generate_graph_data`, falling
through `generate_legacy_graph_data` to `create_simple_graph_from_text`)
returns a graph whose nodes list is non-empty, whose first node has id
`"0"` and level 0, and in which exactly one node has id `"0"` — whichever
of the three builder paths is taken. -/
theorem claim1_totality_root_invariant (ai : AIOutcome) (c : ContentRecord) :
    rootOK (generate_graph_data ai c) := by
  cases ai with
  | failure =>
    show rootOK (generate_legacy_graph_data c)
    unfold generate_legacy_graph_data
    cases c.content with
    | rawText s => exact simple_rootOK _ _
    | jsonDoc d => exact legacy_rootOK _ _
  | hier h => exact hier_rootOK h c.title

/-- C2: in every graph produced by any of the three builders (AI
hierarchy assembly, legacy structured builder, simple text builder),
every link's source and target equal the id of some node of the same
graph. -/
theorem claim2_link_referential_integrity :
    (∀ text title, linksOK (create_simple_graph_from_text text title)) ∧
    (∀ d t, linksOK (generate_legacy_graph_data_structured d t)) ∧
    (∀ h t, linksOK (generate_graph_data_hier h t)) :=
  ⟨simple_linksOK, legacy_linksOK, hier_linksOK⟩

/-- C3 counterexample: with the AI model unavailable, the text
`"A. B. C."` yields a graph with only 2 nodes, refuting the claimed lower
bound of 3. -/
theorem claim3_counterexample :
    ¬ 3 ≤ (generate_graph_data_noModel "A. B. C." (some "Doc")).nodes.length := by
  decide

/-- C3 (amended): with the AI model unavailable the resulting graph has
at least 2 nodes for every text input (3 when the fallback hierarchy is
empty, but only 1 + the number of fallback nodes otherwise, which can be
2). -/
theorem claim3_min_nodes_two (text : String) (title : Option String) :
    2 ≤ (generate_graph_data_noModel text title).nodes.length :=
  hier_nodes_ge_two _ _

/-- C4 counterexample: on input text `"A. B. C."` after the validator
rejects an empty AI hierarchy, the assembled graph does NOT have 3 nodes
and 3 links (the minimum-viable padding requires exactly one node, but
the fallback contributed one concept node, making two). -/
theorem claim4_counterexample :
    ¬ ((generate_graph_data_hier
        (generate_hierarchical_graph_structure_parsed ⟨⟨none, none⟩, [], []⟩
          (.text "A. B. C."))
        (some "Doc")).nodes.length = 3 ∧
      (generate_graph_data_hier
        (generate_hierarchical_graph_structure_parsed ⟨⟨none, none⟩, [], []⟩
          (.text "A. B. C."))
        (some "Doc")).links.length = 3) := by
  decide

/-- The strength table as the spec words it. -/
theorem strength_table_spec (s : String) :
    dictGetNat strength_values s 2 =
      (if s = "strong" then 3 else if s = "medium" then 2 else if s = "weak" then 1
       else 2) := by
  by_cases h1 : s = "strong"
  · subst h1; decide
  · by_cases h2 : s = "medium"
    · subst h2; decide
    · by_cases h3 : s = "weak"
      · subst h3; decide
      · have b1 : ("strong" == s) = false := by
          rw [beq_eq_false_iff_ne]
          exact fun he => h1 he.symm
        have b2 : ("medium" == s) = false := by
          rw [beq_eq_false_iff_ne]
          exact fun he => h2 he.symm
        have b3 : ("weak" == s) = false := by
          rw [beq_eq_false_iff_ne]
          exact fun he => h3 he.symm
        simp [dictGetNat, strength_values, List.find?, b1, b2, b3, h1, h2, h3]

/-- The importance table as the spec words it. -/
theorem size_table_spec (imp : String) :
    dictGetNat size_map imp 28 =
      (if imp = "high" then 35 else if imp = "medium" then 28 else if imp = "low" then 22
       else 28) := by
  by_cases h1 : imp = "high"
  · subst h1; decide
  · by_cases h2 : imp = "medium"
    · subst h2; decide
    · by_cases h3 : imp = "low"
      · subst h3; decide
      · have b1 : ("high" == imp) = false := by
          rw [beq_eq_false_iff_ne]
          exact fun he => h1 he.symm
        have b2 : ("medium" == imp) = false := by
          rw [beq_eq_false_iff_ne]
          exact fun he => h2 he.symm
        have b3 : ("low" == imp) = false := by
          rw [beq_eq_false_iff_ne]
          exact fun he => h3 he.symm
        simp [dictGetNat, size_map, List.find?, b1, b2, b3, h1, h2, h3]

theorem color_table_spec (kind : String) (lvl : Int) :
    nodeColor kind lvl = specNodeColor kind lvl := by
  by_cases h1 : kind = "concept"
  · subst h1; simp [nodeColor, specNodeColor, dictGetStr, type_colors, List.find?]
  · by_cases h2 : kind = "definition"
    · subst h2; simp [nodeColor, specNodeColor, dictGetStr, type_colors, List.find?, h1]
    · by_cases h3 : kind = "principle"
      · subst h3; simp [nodeColor, specNodeColor, dictGetStr, type_colors, List.find?]
      · by_cases h4 : kind = "example"
        · subst h4; simp [nodeColor, specNodeColor, dictGetStr, type_colors, List.find?]
        · by_cases h5 : kind = "application"
          · subst h5; simp [nodeColor, specNodeColor, dictGetStr, type_colors, List.find?]
          · have bk1 : ("concept" == kind) = false := by
              rw [beq_eq_false_iff_ne]; exact fun he => h1 he.symm
            have bk2 : ("definition" == kind) = false := by
              rw [beq_eq_false_iff_ne]; exact fun he => h2 he.symm
            have bk3 : ("principle" == kind) = false := by
              rw [beq_eq_false_iff_ne]; exact fun he => h3 he.symm
            have bk4 : ("example" == kind) = false := by
              rw [beq_eq_false_iff_ne]; exact fun he => h4 he.symm
            have bk5 : ("application" == kind) = false := by
              rw [beq_eq_false_iff_ne]; exact fun he => h5 he.symm
            have hty : dictGetStr type_colors kind = none := by
              simp [dictGetStr, type_colors, List.find?, bk1, bk2, bk3, bk4, bk5]
            by_cases l1 : lvl = 1
            · subst l1
              simp [nodeColor, specNodeColor, dictGetLevel, level_colors, List.find?,
                hty, h1, h2, h3, h4, h5]
            · by_cases l2 : lvl = 2
              · subst l2
                simp [nodeColor, specNodeColor, dictGetLevel, level_colors, List.find?,
                  hty, h1, h2, h3, h4, h5]
              · by_cases l3 : lvl = 3
                · subst l3
                  simp [nodeColor, specNodeColor, dictGetLevel, level_colors, List.find?,
                    hty, h1, h2, h3, h4, h5]
                · by_cases l4 : lvl = 4
                  · subst l4
                    simp [nodeColor, specNodeColor, dictGetLevel, level_colors,
                      List.find?, hty, h1, h2, h3, h4, h5]
                  · by_cases l5 : lvl = 5
                    · subst l5
                      simp [nodeColor, specNodeColor, dictGetLevel, level_colors,
                        List.find?, hty, h1, h2, h3, h4, h5]
                    · have bl1 : ((1 : Int) == lvl) = false := by
                        rw [beq_eq_false_iff_ne]; exact fun he => l1 he.symm
                      have bl2 : ((2 : Int) == lvl) = false := by
                        rw [beq_eq_false_iff_ne]; exact fun he => l2 he.symm
                      have bl3 : ((3 : Int) == lvl) = false := by
                        rw [beq_eq_false_iff_ne]; exact fun he => l3 he.symm
                      have bl4 : ((4 : Int) == lvl) = false := by
                        rw [beq_eq_false_iff_ne]; exact fun he => l4 he.symm
                      have bl5 : ((5 : Int) == lvl) = false := by
                        rw [beq_eq_false_iff_ne]; exact fun he => l5 he.symm
                      simp [nodeColor, specNodeColor, dictGetLevel, level_colors,
                        List.find?, hty, h1, h2, h3, h4, h5, l1, l2, l3, l4, l5,
                        bl1, bl2, bl3, bl4, bl5]

theorem relLinkOf_eq_of_some {m : List (String × String)} {r : HRel} {s t : String}
    (hs : mapGet m r.source = some s) (ht : mapGet m r.target = some t) :
    relLinkOf m r =
      if s != "" && t != "" && s != t then
        some ⟨s, t, dictGetNat strength_values r.strength 2,
              some r.relationship_type, some r.description⟩
      else none := by
  unfold relLinkOf
  rw [hs, ht]

theorem relLinkOf_none_left {m : List (String × String)} {r : HRel}
    (hs : mapGet m r.source = none) : relLinkOf m r = none := by
  unfold relLinkOf
  rw [hs]

theorem relLinkOf_none_right {m : List (String × String)} {r : HRel} {s : String}
    (hs : mapGet m r.source = some s) (ht : mapGet m r.target = none) :
    relLinkOf m r = none := by
  unfold relLinkOf
  rw [hs, ht]

/-- C5: a relationship produces a link exactly when both endpoints
resolve through the id map to distinct assigned ids; a dangling or
self-loop relationship is silently dropped; an emitted link's value
follows the strength table `{strong: 3, medium: 2, weak: 1}` with
default 2, and `relationship_type` is carried through as the link type. -/
theorem claim5_relationship_emission (h : Hierarchy) (r : HRel) :
    (∀ s t, mapGet (buildIdMap h) r.source = some s →
      mapGet (buildIdMap h) r.target = some t → s ≠ t →
      relLinkOf (buildIdMap h) r = some ⟨s, t,
        (if r.strength = "strong" then 3 else if r.strength = "medium" then 2
         else if r.strength = "weak" then 1 else 2),
        some r.relationship_type, some r.description⟩) ∧
    (∀ s t, mapGet (buildIdMap h) r.source = some s →
      mapGet (buildIdMap h) r.target = some t → s = t →
      relLinkOf (buildIdMap h) r = none) ∧
    (mapGet (buildIdMap h) r.source = none → relLinkOf (buildIdMap h) r = none) ∧
    (mapGet (buildIdMap h) r.target = none → relLinkOf (buildIdMap h) r = none) ∧
    relLinks h = h.relationships.filterMap (relLinkOf (buildIdMap h)) := by
  refine ⟨?_, ?_, ?_, ?_, rfl⟩
  · intro s t hs ht hst
    have hs0 : s ≠ "" := mapGet_buildIdMap_ne_empty hs
    have ht0 : t ≠ "" := mapGet_buildIdMap_ne_empty ht
    have hb : (s != "" && t != "" && s != t) = true := by simp [hs0, ht0, hst]
    rw [relLinkOf_eq_of_some hs ht, hb]
    simp [strength_table_spec]
  · intro s t hs ht hst
    have hb : (s != "" && t != "" && s != t) = false := by simp [hst]
    rw [relLinkOf_eq_of_some hs ht, hb]
    simp
  · intro hs
    exact relLinkOf_none_left hs
  · intro ht
    cases hs : mapGet (buildIdMap h) r.source with
    | none => exact relLinkOf_none_left hs
    | some s => exact relLinkOf_none_right hs ht

/-- C4 (amended): rejecting the empty AI hierarchy on input
`"A. B. C."` makes the fallback run; every `'.'`-fragment is ≤ 20 chars
after stripping, so the sentence list is empty and the paragraph split
yields the single fragment `"A. B. C."`; the fallback builds exactly one
level-1 node, and the assembled graph has exactly 2 nodes and 1 link —
the minimum-viable-graph padding does not fire because the node count is
2, not 1. -/
theorem claim4_scenario_two_nodes_one_link :
    sentencesOf "A. B. C." = [] ∧
    paragraphsOf "A. B. C." = ["A. B. C."] ∧
    (mainConceptsOf "A. B. C.").length = 1 ∧
    (generate_graph_data_hier
      (generate_hierarchical_graph_structure_parsed ⟨⟨none, none⟩, [], []⟩
        (.text "A. B. C."))
      (some "Doc")).nodes.length = 2 ∧
    (generate_graph_data_hier
      (generate_hierarchical_graph_structure_parsed ⟨⟨none, none⟩, [], []⟩
        (.text "A. B. C."))
      (some "Doc")).links.length = 1 := by
  decide

theorem claim5_witness :
    mapGet (buildIdMap c5h) c5r.source = some "1" ∧
    mapGet (buildIdMap c5h) c5r.target = some "2" ∧
    ("1" : String) ≠ "2" ∧
    relLinkOf (buildIdMap c5h) c5r = some ⟨"1", "2",
      (if c5r.strength = "strong" then 3 else if c5r.strength = "medium" then 2
       else if c5r.strength = "weak" then 1 else 2),
      some c5r.relationship_type, some c5r.description⟩ :=
  ⟨by decide, by decide, by decide,
    (claim5_relationship_emission c5h c5r).1 "1" "2" (by decide) (by decide) (by decide)⟩

/-- C6: in assembly the root node has id `"0"`, level 0, size 50 and
color `#1e3a8a`; every hierarchy node's size follows the importance table
(default 28) and its color the type table, falling back to the level
table, falling back to gray; and the automatic root link (value 3, type
`hierarchy`, no description) is emitted exactly for nodes whose level
equals 1. -/
theorem claim6_node_attributes_and_root_links (h : Hierarchy) (t : Option String) :
    ((generate_graph_data_hier h t).nodes.head? = some (rootNode h t) ∧
      (rootNode h t).id = "0" ∧ (rootNode h t).level = 0 ∧
      (rootNode h t).size = 50 ∧ (rootNode h t).color = some "#1e3a8a") ∧
    (∀ i p, (flatNodes h)[i]? = some p →
      ∃ gn, (generate_graph_data_hier h t).nodes[i + 1]? = some gn ∧
        gn.size = (if p.2.importance = "high" then 35
          else if p.2.importance = "medium" then 28
          else if p.2.importance = "low" then 22 else 28) ∧
        gn.color = some (specNodeColor p.2.kind p.1) ∧
        ((⟨"0", Nat.repr (i + 1), 3, some "hierarchy", none⟩ : GLink) ∈
            (generate_graph_data_hier h t).links ↔ p.1 = 1)) := by
  constructor
  · refine ⟨?_, rfl, rfl, rfl, rfl⟩
    unfold generate_graph_data_hier
    split <;> rfl
  · intro i p hp
    have hne : flatNodes h ≠ [] := by
      intro he
      rw [he] at hp
      simp at hp
    have hne2 : hierNodes h ≠ [] := fun he => hne ((hierNodes_eq_nil_iff h).mp he)
    have hform : generate_graph_data_hier h t =
        ⟨rootNode h t :: hierNodes h, hierLinks h ++ relLinks h⟩ := by
      unfold generate_graph_data_hier
      rw [if_neg ?hcnd]
      case hcnd =>
        simp only [List.length_cons, beq_iff_eq]
        intro hc
        exact hne2 (List.length_eq_zero.mp (by omega))
    rw [hform]
    have hmem_enum : (i, p) ∈ (flatNodes h).enum :=
      List.mem_enum_iff_getElem?.mpr hp
    have hgn : (hierNodes h)[i]? = some (mkGNode (i + 1) p) := by
      unfold hierNodes
      rw [List.getElem?_map, List.enum_eq_enumFrom, List.getElem?_enumFrom, hp]
      simp
    refine ⟨mkGNode (i + 1) p, ?_, ?_, ?_, ?_⟩
    · show (rootNode h t :: hierNodes h)[i + 1]? = _
      rw [List.getElem?_cons_succ]
      exact hgn
    · show dictGetNat size_map p.2.importance 28 = _
      exact size_table_spec _
    · show some (nodeColor p.2.kind p.1) = _
      rw [color_table_spec]
    · constructor
      · intro hmem
        rcases List.mem_append.mp hmem with hh | hr
        · obtain ⟨q, hq, hq1, heq⟩ := hierLinks_mem hh
          have hids : Nat.repr (i + 1) = Nat.repr (q.1 + 1) := congrArg GLink.target heq
          have hqi : q.1 = i := by
            have := repr_inj hids
            omega
          have hq2 : (flatNodes h)[q.1]? = some q.2 := List.mem_enum_iff_getElem?.mp hq
          rw [hqi, hp] at hq2
          have hq3 : q.2 = p := by
            injection hq2 with hq3
            exact hq3.symm
          rw [← hq3]
          exact hq1
        · obtain ⟨r, hrmem, hre⟩ := List.mem_filterMap.mp hr
          obtain ⟨s, tg, _, _, _, _, _, heq⟩ := relLinkOf_some hre
          exact absurd (congrArg GLink.description heq) (by simp)
      · intro h1
        apply List.mem_append.mpr
        left
        apply List.mem_filterMap.mpr
        refine ⟨(i, p), hmem_enum, ?_⟩
        have hb : (p.1 == 1) = true := by simp [h1]
        show (if (i, p).2.1 == 1 then
            some (⟨"0", Nat.repr ((i, p).1 + 1), 3, some "hierarchy", none⟩ : GLink)
          else none) = _
        rw [hb]
        simp

theorem claim6_witness :
    (flatNodes c6h)[0]? = some c6p ∧
    (∃ gn, (generate_graph_data_hier c6h (some "T")).nodes[0 + 1]? = some gn ∧
      gn.size = (if c6p.2.importance = "high" then 35
        else if c6p.2.importance = "medium" then 28
        else if c6p.2.importance = "low" then 22 else 28) ∧
      gn.color = some (specNodeColor c6p.2.kind c6p.1) ∧
      ((⟨"0", Nat.repr (0 + 1), 3, some "hierarchy", none⟩ : GLink) ∈
          (generate_graph_data_hier c6h (some "T")).links ↔ c6p.1 = 1)) :=
  ⟨by decide,
    (claim6_node_attributes_and_root_links c6h (some "T")).2 0 c6p (by decide)⟩

/-- C7: a level-1 fallback node built from a sentence longer than 60
characters has a title ending in `"..."` of length at most 63, while the
untruncated sentence is kept verbatim in the node description and in the
assembled graph node's content; ids are `main_{i}`, the type is
`concept`, and importance is `high` for index < 2, else `medium`. -/
theorem claim7_truncation (i k : Nat) (c : String) (hlen : 60 < c.length) :
    (∃ ttl, (mkMainNode (i, c)).title = some ttl ∧ (∃ y, ttl = y ++ "...") ∧
      ttl.length ≤ 63) ∧
    (mkMainNode (i, c)).description = c ∧
    (mkGNode k (1, mkMainNode (i, c))).content = c ∧
    (mkMainNode (i, c)).hid = some ("main_" ++ Nat.repr i) ∧
    (mkMainNode (i, c)).kind = "concept" ∧
    (mkMainNode (i, c)).importance = (if i < 2 then "high" else "medium") := by
  refine ⟨?_, rfl, rfl, rfl, rfl, rfl⟩
  refine ⟨pyTruncate 60 c, rfl, ?_, ?_⟩
  · unfold pyTruncate
    rw [if_pos hlen]
    exact ⟨c.take 60, rfl⟩
  · unfold pyTruncate
    rw [if_pos hlen, String.length_append]
    have htake : (c.take 60).length ≤ 60 := by
      rw [String.take_eq]
      show (c.data.take 60).length ≤ 60
      rw [List.length_take]
      exact Nat.min_le_left _ _
    have h3 : ("..." : String).length = 3 := rfl
    omega

theorem c7s_long : 60 < c7s.length := by
  show 60 < (List.replicate 200 'a').length
  rw [List.length_replicate]
  omega

theorem claim7_truncation_witness :
    60 < c7s.length ∧
    ((∃ ttl, (mkMainNode (0, c7s)).title = some ttl ∧ (∃ y, ttl = y ++ "...") ∧
        ttl.length ≤ 63) ∧
      (mkMainNode (0, c7s)).description = c7s ∧
      (mkGNode 1 (1, mkMainNode (0, c7s))).content = c7s ∧
      (mkMainNode (0, c7s)).hid = some ("main_" ++ Nat.repr 0) ∧
      (mkMainNode (0, c7s)).kind = "concept" ∧
      (mkMainNode (0, c7s)).importance = (if 0 < 2 then "high" else "medium")) :=
  ⟨c7s_long, claim7_truncation 0 1 c7s c7s_long⟩

theorem subConcepts_nil_of_main_nil {text : String} (hm : mainConceptsOf text = []) :
    subConceptsOf text = [] := by
  unfold mainConceptsOf at hm
  unfold subConceptsOf
  split at hm
  · rename_i hge
    exfalso
    have hlen := congrArg List.length hm
    rw [List.length_take] at hlen
    simp only [List.length_nil] at hlen
    omega
  · rename_i hlt
    have hp : (paragraphsOf text).length = 0 := by
      have hlen := congrArg List.length hm
      rw [List.length_take] at hlen
      simp only [List.length_nil] at hlen
      omega
    rw [if_neg (by omega), if_neg (by omega)]

/-- C8: the fallback builder's level sources are chosen as the spec
states (first 4 sentences if at least 4 exist, else first 4 paragraphs;
sentences 4..8 if at least 8 exist, else paragraphs 4..8 if at least 8
exist, else empty), and it emits one `related`/`medium` relationship
`main_i → sub_i` for each index below the minimum of the two levels'
lengths. -/
theorem claim8_fallback_selection (text : String) :
    mainConceptsOf text = (if 4 ≤ (sentencesOf text).length then (sentencesOf text).take 4
      else (paragraphsOf text).take 4) ∧
    subConceptsOf text =
      (if 8 ≤ (sentencesOf text).length then ((sentencesOf text).drop 4).take 4
       else if 8 ≤ (paragraphsOf text).length then ((paragraphsOf text).drop 4).take 4
       else []) ∧
    (createEnhancedFallbackHierarchy text).relationships =
      (List.range (min (mainConceptsOf text).length (subConceptsOf text).length)).map
        (fun i => ⟨"main_" ++ Nat.repr i, "sub_" ++ Nat.repr i, "related", "medium", ""⟩) := by
  refine ⟨rfl, rfl, ?_⟩
  show fallbackRels text = _
  unfold fallbackRels
  by_cases hm : mainConceptsOf text = []
  · have hs : subConceptsOf text = [] := subConcepts_nil_of_main_nil hm
    rw [if_neg ?hn2]
    case hn2 =>
      unfold fallbackLevels
      rw [if_pos (List.isEmpty_iff.mpr hm), if_pos (List.isEmpty_iff.mpr hs)]
      simp
    rw [hm]
    simp
  · by_cases hs : subConceptsOf text = []
    · rw [if_neg ?hn1]
      case hn1 =>
        unfold fallbackLevels
        rw [if_neg (by simp [List.isEmpty_iff, hm]), if_pos (List.isEmpty_iff.mpr hs)]
        simp
      rw [hs]
      simp
    · rw [if_pos ?hp2]
      case hp2 =>
        unfold fallbackLevels
        rw [if_neg (by simp [List.isEmpty_iff, hm]), if_neg (by simp [List.isEmpty_iff, hs])]
        simp

/-- C9: the fallback hierarchy builder is total — its embedded `try`
body consists only of total operations, hence always returns a hierarchy
and never takes the exception path; the hierarchy returned by the
`except` branch has exactly one level containing exactly one node with
id `main_topic`, type `concept`, importance `high`, and no
relationships. -/
theorem claim9_fallback_totality (c : ContentInput) :
    (∃ hy, fallbackBody c = Except.ok hy ∧ create_enhanced_fallback_hierarchy c = hy) ∧
    minimalFallbackHierarchy.hierarchy_levels.length = 1 ∧
    (∃ L, minimalFallbackHierarchy.hierarchy_levels = [L] ∧
      ∃ n, L.nodes = [n] ∧ n.hid = some "main_topic" ∧ n.kind = "concept" ∧
        n.importance = "high") ∧
    minimalFallbackHierarchy.relationships = [] := by
  exact ⟨⟨createEnhancedFallbackHierarchy (fallbackText c), rfl, rfl⟩, rfl,
    ⟨_, rfl, _, rfl, rfl, rfl, rfl⟩, rfl⟩

/-- Every link a relationship of `h` produces ends up in the assembled
graph's link list (the padded and unpadded branches both keep the
relationship links). -/
theorem rel_mem_assembled_links {h : Hierarchy} (t : Option String) {r : HRel} {l : GLink}
    (hr : r ∈ h.relationships) (hl : relLinkOf (buildIdMap h) r = some l) :
    l ∈ (generate_graph_data_hier h t).links := by
  have hmemrel : l ∈ relLinks h := List.mem_filterMap.mpr ⟨r, hr, hl⟩
  unfold generate_graph_data_hier
  split
  · exact List.mem_append.mpr (Or.inl (List.mem_append.mpr (Or.inr hmemrel)))
  · exact List.mem_append.mpr (Or.inr hmemrel)

/-- C10: the id map is pre-seeded with `"main" ↦ "0"`, so when no
hierarchy node's map key is `"main"`, a relationship whose source or
target is exactly the string `"main"` resolves on that side to the root,
and (when the other endpoint resolves to a different id) produces a link
incident to the root in the assembled graph. -/
theorem claim10_main_preseed (h : Hierarchy) (t : Option String)
    (hyp : ∀ q ∈ (flatNodes h).enum, hKey (q.1 + 1) q.2.2 ≠ "main") :
    mapGet (buildIdMap h) "main" = some "0" ∧
    (∀ r ∈ h.relationships, r.source = "main" →
      ∀ tg, mapGet (buildIdMap h) r.target = some tg → tg ≠ "0" →
        (⟨"0", tg, dictGetNat strength_values r.strength 2,
          some r.relationship_type, some r.description⟩ : GLink) ∈
          (generate_graph_data_hier h t).links) ∧
    (∀ r ∈ h.relationships, r.target = "main" →
      ∀ s, mapGet (buildIdMap h) r.source = some s → s ≠ "0" →
        (⟨s, "0", dictGetNat strength_values r.strength 2,
          some r.relationship_type, some r.description⟩ : GLink) ∈
          (generate_graph_data_hier h t).links) := by
  have hmain : mapGet (buildIdMap h) "main" = some "0" := by
    unfold mapGet
    rw [buildIdMap_eq, List.find?_append]
    have h1 : (((flatNodes h).enum.map
        (fun q => (hKey (q.1 + 1) q.2.2, Nat.repr (q.1 + 1)))).reverse.find?
        (fun p => p.1 == "main")) = none := by
      rw [List.find?_eq_none]
      intro x hx
      rw [List.mem_reverse] at hx
      obtain ⟨q, hq, hqe⟩ := List.mem_map.mp hx
      rw [← hqe]
      simp only [beq_iff_eq]
      exact hyp q hq
    rw [h1]
    rfl
  refine ⟨hmain, ?_, ?_⟩
  · intro r hr hsrc tg htg htg0
    have hs : mapGet (buildIdMap h) r.source = some "0" := by rw [hsrc]; exact hmain
    have ht0 : tg ≠ "" := mapGet_buildIdMap_ne_empty htg
    have hb : (("0" : String) != "" && tg != "" && ("0" : String) != tg) = true := by
      simp [ht0]
      exact fun he => htg0 he.symm
    refine rel_mem_assembled_links t hr ?_
    rw [relLinkOf_eq_of_some hs htg, hb]
    simp
  · intro r hr htgt s hs hs0
    have ht : mapGet (buildIdMap h) r.target = some "0" := by rw [htgt]; exact hmain
    have hs1 : s ≠ "" := mapGet_buildIdMap_ne_empty hs
    have hb : (s != "" && ("0" : String) != "" && s != ("0" : String)) = true := by
      simp [hs1, hs0]
    refine rel_mem_assembled_links t hr ?_
    rw [relLinkOf_eq_of_some hs ht, hb]
    simp

theorem claim10_witness :
    (∀ q ∈ (flatNodes c10h).enum, hKey (q.1 + 1) q.2.2 ≠ "main") ∧
    mapGet (buildIdMap c10h) "main" = some "0" ∧
    (⟨"0", "1", dictGetNat strength_values c10r.strength 2,
      some c10r.relationship_type, some c10r.description⟩ : GLink) ∈
      (generate_graph_data_hier c10h none).links ∧
    (⟨"1", "0", dictGetNat strength_values c10r2.strength 2,
      some c10r2.relationship_type, some c10r2.description⟩ : GLink) ∈
      (generate_graph_data_hier c10h none).links :=
  ⟨by decide, (claim10_main_preseed c10h none (by decide)).1,
    (claim10_main_preseed c10h none (by decide)).2.1 c10r (by decide) (by decide) "1"
      (by decide) (by decide),
    (claim10_main_preseed c10h none (by decide)).2.2 c10r2 (by decide) (by decide) "1"
      (by decide) (by decide)⟩

end StudySahayak
